import Mathlib

set_option maxHeartbeats 1000000
set_option maxRecDepth 8192

/-!
Verification of the order matching and settlement engine of frivolousStonks
(src/index.ts).  The engine state (users, guilds, order books) is embedded
shallowly: JavaScript objects become association lists, in-place mutation
becomes explicit state passing performed statement by statement, and the
unbounded `while` loop of executeOrderPrice is given an explicit fuel
parameter (any terminating run of the source is reproduced with enough fuel;
a run that would not terminate yields the marker Fault.fuelOut).

JavaScript-specific semantics that matter here and are modelled faithfully:
* reading an absent object key yields undefined; arithmetic on undefined
  yields NaN (modelled by JNum := Option Int with none playing NaN);
  NaN is falsy and every comparison against NaN is false;
* Array.prototype.splice with a single argument deletes from that index to
  the END of the array; a negative index counts from the end;
* findIndex returns -1 when no element matches;
* accessing a property of undefined throws a TypeError (Fault.typeError).

One deliberate simplification: the source shares one mutable Order object
between a queue and its owner's pending list, so a volume decrement of a
resting order is visible from both.  Here orders are stored by value and the
queue copy is authoritative; no theorem below observes the pending-list copy
of an order after a later fill mutated it.  Timestamps (moment()) are
external wall-clock I/O and are elided: changePrice is modelled as appending
the trade price to actualPriceHist.
-/

namespace FrivolousStonks

/-- Order direction, from the source type OrderDir. -/
inductive OrderDir where
  | buy
  | sell
deriving DecidableEq, Repr

/-- Order kind, from the source type OrderType. -/
inductive OrderType where
  | lim
  | mkt
  | ipo
deriving DecidableEq, Repr

/-- A JavaScript number as used for holdings: none models NaN, which the
source produces when it does arithmetic on an undefined holdings entry. -/
abbrev JNum := Option Int

/-- JS addition j + b where j may be NaN. -/
def jAdd : JNum → Int → JNum
  | some a, b => some (a + b)
  | none, _ => none

/-- JS subtraction j - b where j may be NaN. -/
def jSub : JNum → Int → JNum
  | some a, b => some (a - b)
  | none, _ => none

/-- JS truthiness of a number: 0 and NaN are falsy. -/
def jTruthy : JNum → Bool
  | some a => decide (a ≠ 0)
  | none => false

/-- JS comparison j < b: false whenever j is NaN. -/
def jLtInt : JNum → Int → Bool
  | some a, b => decide (a < b)
  | none, _ => false

/-- An order, from the source interface Order. -/
structure Order where
  id : Option String
  dir : OrderDir
  type : OrderType
  userId : String
  guildId : String
  volume : Int
  price : Int
deriving DecidableEq, Repr

/-- A user record: data.users[...] in the source.  The holdings map can hold
a NaN value (none), which the source can produce. -/
structure User where
  coins : Int
  holdings : List (String × JNum)
  pendingOrders : List Order
deriving DecidableEq, Repr

/-- The market-order book: interface MarketOrderBook.  Both fields are
non-optional arrays in the source type. -/
structure MarketOrderBook where
  buy : List Order
  sell : List Order
deriving DecidableEq, Repr

/-- A guild (security) record: data.guilds[...].  The ticker, the
trueDataPoints ring and the timestamp list play no role in the claims and
are elided; actualPriceHist is kept because executeOrderPrice appends the
trade price to it (changePrice). -/
structure Guild where
  truePrice : Option Int
  actualPriceHist : List Int
  lim : List (Int × List Order)
  mkt : MarketOrderBook
  ipo : Option Order
deriving DecidableEq, Repr

/-- The engine state: the parts of the source variable data that the
matching engine reads and writes. -/
structure Data where
  users : List (String × User)
  guilds : List (String × Guild)
  trading : Bool
deriving DecidableEq, Repr

abbrev Users := List (String × User)

/-- Association-list lookup: JS object property read (first matching key). -/
def alookup {κ α : Type} [DecidableEq κ] : List (κ × α) → κ → Option α
  | [], _ => none
  | (k, v) :: rest, key => if k = key then some v else alookup rest key

/-- Association-list write: JS object property assignment (replace the
entry when the key is present, append it otherwise). -/
def aset {κ α : Type} [DecidableEq κ] : List (κ × α) → κ → α → List (κ × α)
  | [], key, val => [(key, val)]
  | (k, v) :: rest, key, val =>
      if k = key then (key, val) :: rest else (k, v) :: aset rest key val

/-- Association-list delete: the JS delete operator. -/
def aerase {κ α : Type} [DecidableEq κ] : List (κ × α) → κ → List (κ × α)
  | [], _ => []
  | (k, v) :: rest, key => if k = key then rest else (k, v) :: aerase rest key

/-- In-place update of the record stored under a key, modelling mutation
through a captured reference (orderUser.coins -= ... and the like). -/
def aupdate {κ α : Type} [DecidableEq κ] : List (κ × α) → κ → (α → α) → List (κ × α)
  | [], _, _ => []
  | (k, v) :: rest, key, f =>
      if k = key then (k, f v) :: aupdate rest key f
      else (k, v) :: aupdate rest key f

/-- Read of a holdings entry as a number: an absent key is undefined, and
undefined under arithmetic behaves as NaN (none). -/
def hReadNum (h : List (String × JNum)) (k : String) : JNum :=
  match alookup h k with
  | some v => v
  | none => none

/-- Array.prototype.findIndex, accumulating the current index. -/
def jsFindIndexFrom {α : Type} (p : α → Bool) : List α → Int → Int
  | [], _ => -1
  | x :: xs, i => if p x then i else jsFindIndexFrom p xs (i + 1)

/-- Array.prototype.findIndex: index of the first match, -1 when none. -/
def jsFindIndex {α : Type} (l : List α) (p : α → Bool) : Int :=
  jsFindIndexFrom p l 0

/-- Array.prototype.splice(start) with one argument: removes every element
from start (clamped; negative counts from the end) to the end of the array,
returning what is kept. -/
def jsSpliceFrom {α : Type} (l : List α) (start : Int) : List α :=
  if start < 0 then l.take (max ((l.length : Int) + start) 0).toNat
  else l.take (min start (l.length : Int)).toNat

/-- The system account id, from the source constant SYSTEM_ID. -/
def SYSTEM_ID : String := "system"

/-- The coins every new user receives, from the source constant
INIT_COIN_COUNT. -/
def INIT_COIN_COUNT : Int := 1000

/-- The number of shares distributed in an IPO, from the source constant
IPO_NUM_SHARES. -/
def IPO_NUM_SHARES : Int := 1000

/-- The typed failures of the engine, plus two modelling markers:
typeError stands for a JavaScript TypeError raised by a property access or
method call on undefined, and fuelOut marks a run of the source whose while
loop would not have terminated within the supplied fuel.  A faulting run of
the source may already have performed some mutations (the interaction
handler persists them anyway); the embedding returns only the fault, and no
theorem below inspects state after a fault. -/
inductive Fault where
  | notEnoughCoins
  | orderTooLarge
  | invalidOrderID
  | tradingStopped
  | typeError
  | fuelOut
deriving DecidableEq, Repr

/-- Where the counter-order picked by the while-loop condition of
executeOrderPrice lives, so that a volume decrement can be written back. -/
inductive OppSrc where
  | fromIpo
  | fromMkt
  | fromLim
deriving DecidableEq, Repr

/-- The opposite direction, from the oppDir variable of processOrder. -/
def oppDirOf : OrderDir → OrderDir
  | OrderDir.buy => OrderDir.sell
  | OrderDir.sell => OrderDir.buy

/-- The sign variable direction of processOrder: 1 for a buy, -1 for a
sell. -/
def directionOf : OrderDir → Int
  | OrderDir.buy => 1
  | OrderDir.sell => -1

/-- Read guild.mkt[d]. -/
def mktGet (m : MarketOrderBook) : OrderDir → List Order
  | OrderDir.buy => m.buy
  | OrderDir.sell => m.sell

/-- Write guild.mkt[d]. -/
def mktSet (m : MarketOrderBook) : OrderDir → List Order → MarketOrderBook
  | OrderDir.buy, q => { m with buy := q }
  | OrderDir.sell, q => { m with sell := q }

/-- Third disjunct of the while condition of executeOrderPrice: the head of
the limit queue at the order's price, provided its direction is opposite. -/
def pickLim (guild : Guild) (order : Order) : Option (OppSrc × Order) :=
  match alookup guild.lim order.price with
  | some (o :: _) =>
      if o.dir = oppDirOf order.dir then some (OppSrc.fromLim, o) else none
  | some [] => none
  | none => none

/-- Second disjunct of the while condition: the head of the opposite market
queue, falling through to the limit queue on emptiness or direction
mismatch. -/
def pickMkt (guild : Guild) (order : Order) : Option (OppSrc × Order) :=
  match mktGet guild.mkt (oppDirOf order.dir) with
  | o :: _ =>
      if o.dir = oppDirOf order.dir then some (OppSrc.fromMkt, o)
      else pickLim guild order
  | [] => pickLim guild order

/-- The full while condition of executeOrderPrice: the IPO pseudo-order
(for a buy whose price reaches the true price; a comparison against an
undefined true price is false in JS), else the market queue head, else the
limit queue head.  none means the loop exits. -/
def pickOpp (guild : Guild) (order : Order) : Option (OppSrc × Order) :=
  match guild.ipo, guild.truePrice with
  | some o, some tp =>
      if order.dir = OrderDir.buy ∧ tp ≤ order.price then some (OppSrc.fromIpo, o)
      else pickMkt guild order
  | some _, none => pickMkt guild order
  | none, _ => pickMkt guild order

/-- Write the partially filled counter-order back to where it came from
(the source mutates oppOrder.volume through a shared reference). -/
def writeBackOpp (guild : Guild) (order : Order) (src : OppSrc) (newOpp : Order) :
    Guild :=
  match src with
  | OppSrc.fromIpo => { guild with ipo := some newOpp }
  | OppSrc.fromMkt =>
      match mktGet guild.mkt (oppDirOf order.dir) with
      | _ :: rest =>
          { guild with mkt := mktSet guild.mkt (oppDirOf order.dir) (newOpp :: rest) }
      | [] => guild
  | OppSrc.fromLim =>
      match alookup guild.lim order.price with
      | some (_ :: rest) =>
          { guild with lim := aset guild.lim order.price (newOpp :: rest) }
      | _ => guild

/-- The while loop of executeOrderPrice (source lines 420-477), one
recursive call per iteration.  The returned Bool is the return value of
executeOrderPrice: true means the incoming order was consumed.  Statements
are replayed in source order: coins are moved (scaled by the min of the two
volumes), the counter-party's holdings are debited by order.volume (the
incoming order's full remaining volume, not the filled amount), the entry
is deleted when the debited value is truthy (i.e. when it is NOT zero),
the order's user is credited order.volume, the trade price is appended to
the price history, and then either the counter-order is fully consumed
(order.volume shrinks, the counter-party's pending list is spliced from the
found index, the limit queue at the order's price is shifted even when the
counter-order came from the market queue or the IPO) or the counter-order's
volume is shrunk in place and the loop returns true. -/
def execLoop : Nat → Users → Guild → Order → Except Fault (Users × Guild × Order × Bool)
  | 0, _, _, _ => Except.error Fault.fuelOut
  | Nat.succ fuel, users, guild, order =>
    match pickOpp guild order with
    | none => Except.ok (users, guild, order, false)
    | some (src, oppOrder) =>
      match alookup users oppOrder.userId with
      | none => Except.error Fault.typeError
      | some _ =>
        let direction := directionOf order.dir
        let numCoinsTransferred : Int :=
          order.price *
            (if oppOrder.volume ≤ order.volume then oppOrder.volume else order.volume)
        let users := aupdate users order.userId
          (fun u => { u with coins := u.coins - direction * numCoinsTransferred })
        let users := aupdate users oppOrder.userId
          (fun u => { u with coins := u.coins + direction * numCoinsTransferred })
        let users := aupdate users oppOrder.userId
          (fun u => { u with
            holdings := aset u.holdings order.guildId
              (jSub (hReadNum u.holdings order.guildId) (direction * order.volume)) })
        let users := aupdate users oppOrder.userId
          (fun u =>
            if jTruthy (hReadNum u.holdings order.guildId) then
              { u with holdings := aerase u.holdings order.guildId }
            else u)
        let users := aupdate users order.userId
          (fun u => { u with
            holdings := aset u.holdings order.guildId
              (jAdd (hReadNum u.holdings order.guildId) (direction * order.volume)) })
        let guild := { guild with actualPriceHist := guild.actualPriceHist ++ [order.price] }
        if oppOrder.volume ≤ order.volume then
          let order := { order with volume := order.volume - direction * oppOrder.volume }
          let users := aupdate users oppOrder.userId
            (fun u => { u with
              pendingOrders := jsSpliceFrom u.pendingOrders
                (jsFindIndex u.pendingOrders (fun t => decide (t.id = oppOrder.id))) })
          match alookup guild.lim order.price with
          | none => Except.error Fault.typeError
          | some q =>
            let guild := { guild with lim := aset guild.lim order.price q.tail }
            if order.volume = 0 then Except.ok (users, guild, order, true)
            else execLoop fuel users guild order
        else
          let newOpp := { oppOrder with volume := oppOrder.volume - direction * order.volume }
          Except.ok (users, writeBackOpp guild order src newOpp, order, true)

/-- executeOrderPrice (source lines 410-484).  The second disjunct of the
outer guard, marketQueue !== undefined, is always true because the
MarketOrderBook fields are non-optional, so the else branch that would
create guild.lim[order.price] is dead code. -/
def executeOrderPrice (fuel : Nat) (users : Users) (guild : Guild) (order : Order) :
    Except Fault (Users × Guild × Order × Bool) :=
  if (alookup guild.lim order.price).isSome || true || guild.ipo.isSome then
    execLoop fuel users guild order
  else
    Except.ok (users, { guild with lim := aset guild.lim order.price [] }, order, false)

/-- Comparator passed to Array.prototype.sort over the limit price keys of
a market order sweep: a precedes b exactly when -1 * direction * (a - b) is
negative. -/
def priceBefore (direction : Int) (a b : Int) : Bool :=
  decide ((-1) * direction * (a - b) < 0)

/-- Insertion step of the sort of the price keys. -/
def insertPrice (direction : Int) (x : Int) : List Int → List Int
  | [] => [x]
  | y :: ys => if priceBefore direction x y then x :: y :: ys else y :: insertPrice direction x ys

/-- The price keys of the limit book in the order the market sweep visits
them: Object.keys(guild.lim).map(parseInt).sort((a, b) => -1 * direction *
(a - b)).  The keys are pairwise distinct, so insertion sort realises the
comparator order exactly. -/
def sortPrices (direction : Int) (l : List Int) : List Int :=
  l.foldr (insertPrice direction) []

/-- The for-of loop of the market-order case of processOrder (source lines
494-502): set order.price to each candidate price in comparator order and
run executeOrderPrice, stopping early when the order is consumed. -/
def sweepPrices (fuel : Nat) : List Int → Users → Guild → Order →
    Except Fault (Users × Guild × Order × Bool)
  | [], users, guild, order => Except.ok (users, guild, order, false)
  | p :: rest, users, guild, order =>
    let order := { order with price := p }
    match executeOrderPrice fuel users guild order with
    | Except.error f => Except.error f
    | Except.ok (users, guild, order, true) => Except.ok (users, guild, order, true)
    | Except.ok (users, guild, order, false) => sweepPrices fuel rest users guild order

/-- Fold the locally mutated users and guild back into the global data
(the source mutates them through references, so this is implicit there). -/
def storeBack (data : Data) (users : Users) (guild : Guild) (guildId : String) : Data :=
  { data with users := users, guilds := aset data.guilds guildId guild }

/-- Tail of processOrder (source lines 508-522): assign the fresh id
(newId models the crypto.randomBytes hex string), push the order into the
limit queue at its price (a TypeError when that queue does not exist: the
source never created it) or into its direction's market queue, and push it
onto the owner's pending list. -/
def restOrder (data : Data) (users : Users) (guild : Guild) (order : Order)
    (newId : String) : Except Fault (Data × Option Order) :=
  let order := { order with id := some newId }
  match (match order.type with
         | OrderType.lim =>
            match alookup guild.lim order.price with
            | none => none
            | some q => some { guild with lim := aset guild.lim order.price (q ++ [order]) }
         | _ =>
            some { guild with
                   mkt := mktSet guild.mkt order.dir (mktGet guild.mkt order.dir ++ [order]) }) with
  | none => Except.error Fault.typeError
  | some guild =>
    let users := aupdate users order.userId
      (fun u => { u with pendingOrders := u.pendingOrders ++ [order] })
    Except.ok (storeBack data users guild order.guildId, some order)

/-- processOrder (source lines 350-523): the submit operation.  In source
order: reject when trading is stopped; drop non-positive volumes; crash when
the user record is missing (the source reads orderUser.holdings of
undefined); initialise the user's holdings entry for this security to 0
when absent; run the admission check for non-system users (projecting the
user's other pending orders of this security: a resting sell reserves its
volume, a resting limit buy reserves only its price, not price times
volume); then match by kind: a limit order runs executeOrderPrice at its
own price, a market order sweeps the limit price keys in comparator order
and afterwards REPLACES guild.lim at the final order.price by an empty
queue; an ipo-kind order matches no case and falls through.  Any remaining
volume is queued by restOrder. -/
def processOrder (fuel : Nat) (data : Data) (order : Order) (newId : String) :
    Except Fault (Data × Option Order) :=
  if !data.trading then Except.error Fault.tradingStopped
  else if order.volume ≤ 0 then Except.ok (data, none)
  else
    match alookup data.users order.userId with
    | none => Except.error Fault.typeError
    | some _ =>
      let users := aupdate data.users order.userId
        (fun u =>
          if (alookup u.holdings order.guildId).isNone then
            { u with holdings := aset u.holdings order.guildId (some 0) }
          else u)
      let admission : Option Fault :=
        if order.userId = SYSTEM_ID then none
        else
          match alookup users order.userId with
          | none => none
          | some u =>
            let theo := u.pendingOrders.foldl
              (fun (acc : Int × JNum) p =>
                if p.guildId = order.guildId then
                  if p.dir = OrderDir.sell then (acc.1, jSub acc.2 p.volume)
                  else if p.dir = OrderDir.buy ∧ p.type = OrderType.lim then
                    (acc.1 - p.price, acc.2)
                  else acc
                else acc)
              (u.coins, hReadNum u.holdings order.guildId)
            if order.type = OrderType.lim ∧ order.dir = OrderDir.buy ∧
                theo.1 < order.price * order.volume then
              some Fault.notEnoughCoins
            else if order.dir = OrderDir.sell ∧ jLtInt theo.2 order.volume then
              some Fault.orderTooLarge
            else none
      match admission with
      | some f => Except.error f
      | none =>
        match alookup data.guilds order.guildId with
        | none => Except.error Fault.typeError
        | some guild =>
          match order.type with
          | OrderType.lim =>
            match executeOrderPrice fuel users guild order with
            | Except.error f => Except.error f
            | Except.ok (users', guild', _, true) =>
                Except.ok (storeBack data users' guild' order.guildId, none)
            | Except.ok (users', guild', order', false) =>
                restOrder data users' guild' order' newId
          | OrderType.mkt =>
            let keys := sortPrices (directionOf order.dir) (guild.lim.map Prod.fst)
            match sweepPrices fuel keys users guild order with
            | Except.error f => Except.error f
            | Except.ok (users', guild', _, true) =>
                Except.ok (storeBack data users' guild' order.guildId, none)
            | Except.ok (users', guild', order', false) =>
                let guild' := { guild' with lim := aset guild'.lim order'.price [] }
                restOrder data users' guild' order' newId
          | OrderType.ipo => restOrder data users guild order newId

/-- cancelOrder (source lines 528-550).  The pending list is spliced FROM
the found index (one-argument splice), then the book queue located by the
order's kind, price and direction is spliced from ITS found index (-1, when
the id is not in the queue, removes the last element). -/
def cancelOrder (data : Data) (order : Order) : Except Fault Data :=
  match alookup data.users order.userId with
  | none => Except.error Fault.typeError
  | some u =>
    let orderIndex := jsFindIndex u.pendingOrders (fun t => decide (t.id = order.id))
    if orderIndex = -1 then Except.error Fault.invalidOrderID
    else
      let users := aupdate data.users order.userId
        (fun v => { v with pendingOrders := jsSpliceFrom v.pendingOrders orderIndex })
      match alookup data.guilds order.guildId with
      | none => Except.error Fault.typeError
      | some g =>
        match (match order.type with
               | OrderType.lim => alookup g.lim order.price
               | OrderType.mkt => some (mktGet g.mkt order.dir)
               | OrderType.ipo => none) with
        | none => Except.error Fault.typeError
        | some q =>
          let q2 := jsSpliceFrom q (jsFindIndex q (fun t => decide (t.id = order.id)))
          let guilds :=
            match order.type with
            | OrderType.lim =>
                aupdate data.guilds order.guildId
                  (fun h => { h with lim := aset h.lim order.price q2 })
            | _ =>
                aupdate data.guilds order.guildId
                  (fun h => { h with mkt := mktSet h.mkt order.dir q2 })
          Except.ok { data with users := users, guilds := guilds }

/-- newUser (source lines 62-68): a fresh user record. -/
def newUser (data : Data) (userId : String) : Data :=
  { data with
    users := aset data.users userId
      { coins := INIT_COIN_COUNT, holdings := [], pendingOrders := [] } }

/-- The first-contact guard of the interactionCreate handler (source lines
622-623): initialise the user's data when they have none. -/
def ensureUser (data : Data) (userId : String) : Data :=
  if (alookup data.users userId).isSome then data else newUser data userId

/-- Total coins across all user records. -/
def totalCoins (users : Users) : Int :=
  users.foldr (fun e acc => e.2.coins + acc) 0

/-- The shares of one security held by one user; an absent or NaN entry
counts as zero. -/
def sharesOf (u : User) (guildId : String) : Int :=
  match alookup u.holdings guildId with
  | some (some v) => v
  | _ => 0

/-- Total holdings of one security across all user records. -/
def totalShares (users : Users) (guildId : String) : Int :=
  users.foldr (fun e acc => sharesOf e.2 guildId + acc) 0

/-! Concrete scenarios used by the claim theorems.  Each cNxxx family sets
up one engine state taken from the corresponding claim. -/

/-- C1 scenario: the resting sell-limit order, volume 4 at price 5. -/
def c1sell : Order :=
  { id := some "A", dir := OrderDir.sell, type := OrderType.lim,
    userId := "s", guildId := "g", volume := 4, price := 5 }

/-- C1 scenario: the incoming buy-limit order, volume 10 at price 5. -/
def c1buy : Order :=
  { id := none, dir := OrderDir.buy, type := OrderType.lim,
    userId := "b", guildId := "g", volume := 10, price := 5 }

/-- C1 scenario: seller s holds 4 shares and has the sell resting; buyer b
has 1000 coins; the 5-price queue holds only the sell; no IPO, no market
orders. -/
def c1data : Data :=
  { users :=
      [("s", { coins := 0, holdings := [("g", some 4)], pendingOrders := [c1sell] }),
       ("b", { coins := 1000, holdings := [], pendingOrders := [] })],
    guilds :=
      [("g", { truePrice := none, actualPriceHist := [], lim := [(5, [c1sell])],
               mkt := { buy := [], sell := [] }, ipo := none })],
    trading := true }

/-- C2 scenario: resting sell of volume 6 at price 5, owner s holding 10. -/
def c2sell : Order :=
  { id := some "A", dir := OrderDir.sell, type := OrderType.lim,
    userId := "s", guildId := "g", volume := 6, price := 5 }

/-- C2 scenario: incoming buy-limit, volume 4 at price 5. -/
def c2buy : Order :=
  { id := none, dir := OrderDir.buy, type := OrderType.lim,
    userId := "b", guildId := "g", volume := 4, price := 5 }

/-- C2 scenario state. -/
def c2data : Data :=
  { users :=
      [("s", { coins := 0, holdings := [("g", some 10)], pendingOrders := [c2sell] }),
       ("b", { coins := 1000, holdings := [], pendingOrders := [] })],
    guilds :=
      [("g", { truePrice := none, actualPriceHist := [], lim := [(5, [c2sell])],
               mkt := { buy := [], sell := [] }, ipo := none })],
    trading := true }

/-- C3 scenario: resting sell of volume 1 at price 5000. -/
def c3sell : Order :=
  { id := some "A", dir := OrderDir.sell, type := OrderType.lim,
    userId := "s", guildId := "g", volume := 1, price := 5000 }

/-- C3 scenario: incoming MARKET buy of volume 1 by a user with 1000
coins. -/
def c3buy : Order :=
  { id := none, dir := OrderDir.buy, type := OrderType.mkt,
    userId := "b", guildId := "g", volume := 1, price := 0 }

/-- C3 scenario state. -/
def c3data : Data :=
  { users :=
      [("s", { coins := 0, holdings := [("g", some 1)], pendingOrders := [c3sell] }),
       ("b", { coins := 1000, holdings := [], pendingOrders := [] })],
    guilds :=
      [("g", { truePrice := none, actualPriceHist := [], lim := [(5000, [c3sell])],
               mkt := { buy := [], sell := [] }, ipo := none })],
    trading := true }

/-- C4 scenario: a buy-limit order that rests (the 5-price queue exists and
is empty), submitted by a user with no holdings entry. -/
def c4buy : Order :=
  { id := none, dir := OrderDir.buy, type := OrderType.lim,
    userId := "b", guildId := "g", volume := 1, price := 5 }

/-- C4 scenario state. -/
def c4data : Data :=
  { users := [("b", { coins := 1000, holdings := [], pendingOrders := [] })],
    guilds :=
      [("g", { truePrice := none, actualPriceHist := [], lim := [(5, [])],
               mkt := { buy := [], sell := [] }, ipo := none })],
    trading := true }

/-- C5 scenario: a sell-limit order at a price that has no queue yet, in a
guild whose (always present) market book exists. -/
def c5sell : Order :=
  { id := none, dir := OrderDir.sell, type := OrderType.lim,
    userId := "s", guildId := "g", volume := 5, price := 7 }

/-- C5 scenario state. -/
def c5data : Data :=
  { users := [("s", { coins := 0, holdings := [("g", some 5)], pendingOrders := [] })],
    guilds :=
      [("g", { truePrice := none, actualPriceHist := [], lim := [],
               mkt := { buy := [], sell := [] }, ipo := none })],
    trading := true }

/-- C6 scenario: a resting sell at the cheap price 2. -/
def c6sellCheap : Order :=
  { id := some "B", dir := OrderDir.sell, type := OrderType.lim,
    userId := "s", guildId := "g", volume := 1, price := 2 }

/-- C6 scenario: a resting sell at the dearer price 3. -/
def c6sellDear : Order :=
  { id := some "C", dir := OrderDir.sell, type := OrderType.lim,
    userId := "t", guildId := "g", volume := 1, price := 3 }

/-- C6 scenario: incoming market buy of volume 1. -/
def c6buy : Order :=
  { id := none, dir := OrderDir.buy, type := OrderType.mkt,
    userId := "b", guildId := "g", volume := 1, price := 0 }

/-- C6 scenario state: sells resting at prices 2 and 3. -/
def c6data : Data :=
  { users :=
      [("s", { coins := 0, holdings := [("g", some 1)], pendingOrders := [c6sellCheap] }),
       ("t", { coins := 0, holdings := [("g", some 1)], pendingOrders := [c6sellDear] }),
       ("b", { coins := 1000, holdings := [], pendingOrders := [] })],
    guilds :=
      [("g", { truePrice := none, actualPriceHist := [],
               lim := [(2, [c6sellCheap]), (3, [c6sellDear])],
               mkt := { buy := [], sell := [] }, ipo := none })],
    trading := true }

/-- C7 scenario: a system-originated seed order (the shape newGuild gives
the IPO order: a system market sell of IPO_NUM_SHARES). -/
def c7sysOrder : Order :=
  { id := none, dir := OrderDir.sell, type := OrderType.mkt,
    userId := SYSTEM_ID, guildId := "g", volume := IPO_NUM_SHARES, price := 0 }

/-- C7 scenario state: trading is halted. -/
def c7data : Data :=
  { users := [], guilds := [], trading := false }

/-- C8 scenario: the older resting sell A at price p obviously belongs
first in the queue. -/
def c8A (vA p : Int) : Order :=
  { id := some "A", dir := OrderDir.sell, type := OrderType.lim,
    userId := "sA", guildId := "g", volume := vA, price := p }

/-- C8 scenario: the younger resting sell B at the same price p. -/
def c8B (vB p : Int) : Order :=
  { id := some "B", dir := OrderDir.sell, type := OrderType.lim,
    userId := "sB", guildId := "g", volume := vB, price := p }

/-- C8 scenario: the incoming buy-limit order of volume v at price p. -/
def c8buy (v p : Int) : Order :=
  { id := none, dir := OrderDir.buy, type := OrderType.lim,
    userId := "b", guildId := "g", volume := v, price := p }

/-- C8 scenario state: one price level holding [A, B] in age order, no IPO,
empty market queues, buyer b with c coins, sellers holding hA and hB. -/
def c8data (vA vB p hA hB c : Int) : Data :=
  { users :=
      [("sA", { coins := 0, holdings := [("g", some hA)], pendingOrders := [c8A vA p] }),
       ("sB", { coins := 0, holdings := [("g", some hB)], pendingOrders := [c8B vB p] }),
       ("b", { coins := c, holdings := [], pendingOrders := [] })],
    guilds :=
      [("g", { truePrice := none, actualPriceHist := [], lim := [(p, [c8A vA p, c8B vB p])],
               mkt := { buy := [], sell := [] }, ipo := none })],
    trading := true }

/-- C9 scenario: resting order A at price 5, owned by u. -/
def c9orderA : Order :=
  { id := some "A", dir := OrderDir.sell, type := OrderType.lim,
    userId := "u", guildId := "g", volume := 1, price := 5 }

/-- C9 scenario: resting order B at price 6, owned by the same user u and
submitted after A. -/
def c9orderB : Order :=
  { id := some "B", dir := OrderDir.sell, type := OrderType.lim,
    userId := "u", guildId := "g", volume := 1, price := 6 }

/-- C9 scenario: the record of user u, whose pending list is [A, B]. -/
def c9user : User :=
  { coins := 0, holdings := [("g", some 2)], pendingOrders := [c9orderA, c9orderB] }

/-- C9 scenario: the guild record, with A resting at 5 and B at 6. -/
def c9guild : Guild :=
  { truePrice := none, actualPriceHist := [],
    lim := [(5, [c9orderA]), (6, [c9orderB])],
    mkt := { buy := [], sell := [] }, ipo := none }

/-- C9 scenario state: u's pending list is [A, B]. -/
def c9data : Data :=
  { users := [("u", c9user)], guilds := [("g", c9guild)], trading := true }

/-- C9 scenario: an order whose id is in nobody's pending list. -/
def c9orderMissing : Order :=
  { id := some "Z", dir := OrderDir.sell, type := OrderType.lim,
    userId := "u", guildId := "g", volume := 1, price := 5 }

/-- C10 scenario: a one-user state the fresh user is added next to. -/
def c10data : Data :=
  { users := [("old", { coins := 7, holdings := [], pendingOrders := [] })],
    guilds := [], trading := true }

/-! Claim theorems. -/

/-- Claim C1: a buy of volume 10 against a single resting sell of volume 4
at the same price should move exactly 4 shares.  Evaluating processOrder at
that input shows the code violates this: the buyer is charged coins for 4
shares (1000 becomes 980, as the claim says) but is credited 10 shares, the
seller is debited 10 (their 4-share entry passes through -6 and is then
destroyed by the truthiness-inverted cleanup), and the remaining buy rests
with volume 6. -/
theorem c1_code_bug_eval :
    (match processOrder 10 c1data c1buy "X" with
     | Except.ok (d, r) =>
        some ((alookup d.users "b").map (fun u => (u.coins, alookup u.holdings "g")),
              (alookup d.users "s").map User.holdings,
              r.map Order.volume)
     | _ => none)
    = some (some (980, some (some 10)), some [], some 6) := by rfl

/-- Claim C2: fills should conserve shares.  Evaluating processOrder on a
buy of 4 against a resting sell of 6 whose owner holds 10 shares: the trade
completes (returns null) but total holdings of the security drop from 10 to
4, because the cleanup deletes the seller's NONZERO remainder (the source
tests truthiness where its own comment says it tests for zero). -/
theorem c2_code_bug_eval :
    totalShares c2data.users "g" = 10 ∧
    (match processOrder 10 c2data c2buy "X" with
     | Except.ok (d, r) => some (totalShares d.users "g", r.isNone)
     | _ => none) = some (4, true) := by
  exact ⟨rfl, rfl⟩

/-- Claim C3: no user's coins may go negative.  Evaluating processOrder on
a market buy of one share priced 5000 by a user holding 1000 coins: the
admission check guards only LIMIT buys, so the order executes and leaves
the buyer at -4000 coins. -/
theorem c3_code_bug_eval :
    (match processOrder 10 c3data c3buy "X" with
     | Except.ok (d, _) => (alookup d.users "b").map User.coins
     | _ => none) = some (-4000) := by rfl

/-- Claim C4: no zero-valued holdings entry may ever be stored.  Evaluating
processOrder on a resting buy by a fresh user: the pre-matching bookkeeping
(source line 366) stores holdings["g"] = 0 and nothing removes it, so the
final state holds an explicit zero entry. -/
theorem c4_code_bug_eval :
    (match processOrder 10 c4data c4buy "X" with
     | Except.ok (d, _) => (alookup d.users "b").map User.holdings
     | _ => none) = some [("g", some 0)] := by rfl

/-- Claim C5: an admitted order with leftover volume should be queued, not
crash.  Evaluating processOrder on a sell-limit at a fresh price level: the
queue-creating else branch is unreachable (the market book always exists),
so guild.lim[7].push(order) is a TypeError on undefined. -/
theorem c5_code_bug_eval :
    processOrder 10 c5data c5sell "X" = Except.error Fault.typeError := by rfl

/-- Claim C6: a market buy should sweep resting sell prices in ASCENDING
order.  The source comparator -1 * direction * (a - b) sorts the levels
[2, 3] as [3, 2] for a buy, and evaluating processOrder shows the buyer
pays 3 for the one share while the cheaper resting sell at 2 is left
untouched in its queue. -/
theorem c6_code_bug_eval :
    sortPrices (directionOf OrderDir.buy) [2, 3] = [3, 2] ∧
    (match processOrder 10 c6data c6buy "X" with
     | Except.ok (d, r) =>
        some ((alookup d.users "b").map User.coins,
              (alookup d.guilds "g").map (fun g => alookup g.lim 2),
              r.isNone)
     | _ => none) = some (some 997, some (some [c6sellCheap]), true) := by
  exact ⟨rfl, rfl⟩

/-- Claim C7, counterexample: a system-originated order submitted while
trading is halted does NOT bypass the halt check; processOrder rejects it
with TradingStoppedError like everyone else (the SYSTEM_ID exemption in the
source covers only the funds/holdings admission check). -/
theorem c7_counterexample :
    processOrder 10 c7data c7sysOrder "X" = Except.error Fault.tradingStopped ∧
    c7sysOrder.userId = SYSTEM_ID := by
  exact ⟨rfl, rfl⟩

/-- Claim C7, amended: whenever trading is halted, EVERY submit — the
system account included — fails with TradingStoppedError; the check is the
first statement of processOrder, so no state is touched. -/
theorem c7_halt_rejects_all (fuel : Nat) (data : Data) (order : Order) (newId : String)
    (h : data.trading = false) :
    processOrder fuel data order newId = Except.error Fault.tradingStopped := by
  simp [processOrder, h]

/-- Witness for c7_halt_rejects_all at a concrete halted state and a
concrete system order. -/
theorem c7_halt_rejects_all_witness :
    c7data.trading = false ∧
      processOrder 3 c7data c7sysOrder "Y" = Except.error Fault.tradingStopped :=
  ⟨rfl, c7_halt_rejects_all 3 c7data c7sysOrder "Y" rfl⟩

/-! Helper lemmas about the association-list operations. -/

/-- Looking up the key just written. -/
theorem alookup_aset_self {κ α : Type} [DecidableEq κ] (m : List (κ × α)) (k : κ) (v : α) :
    alookup (aset m k v) k = some v := by
  induction m with
  | nil => simp [aset, alookup]
  | cons e rest ih =>
    obtain ⟨k1, v1⟩ := e
    by_cases h : k1 = k
    · simp [aset, alookup, h]
    · simp [aset, alookup, h, ih]

/-- Looking up the key just updated in place. -/
theorem alookup_aupdate_self {κ α : Type} [DecidableEq κ] (m : List (κ × α)) (k : κ)
    (f : α → α) : alookup (aupdate m k f) k = (alookup m k).map f := by
  induction m with
  | nil => rfl
  | cons e rest ih =>
    obtain ⟨k1, v1⟩ := e
    by_cases h : k1 = k
    · subst h
      simp [aupdate, alookup]
    · simp [aupdate, alookup, h, ih]

/-- Writing an absent key appends it, so the coin total grows by exactly
the new record's coins. -/
theorem totalCoins_aset_fresh (m : Users) (k : String) (u : User)
    (h : alookup m k = none) :
    totalCoins (aset m k u) = totalCoins m + u.coins := by
  induction m with
  | nil => simp [aset, totalCoins]
  | cons e rest ih =>
    obtain ⟨k1, u1⟩ := e
    by_cases hk : k1 = k
    · simp [alookup, hk] at h
    · simp only [alookup, if_neg hk] at h
      simp only [aset, if_neg hk, totalCoins, List.foldr_cons] at *
      rw [ih h]
      ring

/-- List.take is unchanged by clamping the count at the length. -/
theorem take_min_length {α : Type} : ∀ (l : List α) (n : Nat),
    l.take (min n l.length) = l.take n
  | [], _ => by simp
  | _ :: _, 0 => by simp
  | x :: xs, n + 1 => by
    simp [List.length_cons, Nat.succ_min_succ, List.take_succ_cons, take_min_length xs n]

/-- Reading back the market queue just written. -/
theorem mktGet_mktSet (m : MarketOrderBook) (d : OrderDir) (q : List Order) :
    mktGet (mktSet m d q) d = q := by
  cases d <;> rfl

/-- One-argument splice at a nonnegative index is list truncation. -/
theorem jsSpliceFrom_natCast {α : Type} (l : List α) (i : Nat) :
    jsSpliceFrom l (i : Int) = l.take i := by
  unfold jsSpliceFrom
  rw [if_neg (by omega : ¬ (i : Int) < 0)]
  rw [(by omega : (min (i : Int) (l.length : Int)).toNat = min i l.length)]
  exact take_min_length l i

/-- Claim C10: a user record created at first contact holds exactly
INIT_COIN_COUNT = 1000 coins, an empty holdings map and an empty pending
list, and the total coin supply grows by exactly 1000. -/
theorem c10_new_user_init (data : Data) (userId : String)
    (h : alookup data.users userId = none) :
    alookup (ensureUser data userId).users userId =
      some { coins := INIT_COIN_COUNT, holdings := [], pendingOrders := [] } ∧
    totalCoins (ensureUser data userId).users = totalCoins data.users + 1000 := by
  have hguard : ensureUser data userId = newUser data userId := by
    unfold ensureUser
    rw [h]
    rfl
  rw [hguard]
  constructor
  · exact alookup_aset_self data.users userId _
  · show totalCoins (aset data.users userId _) = _
    rw [totalCoins_aset_fresh data.users userId _ h]
    rfl

/-- Witness for c10_new_user_init: the user new is absent from c10data and
first contact adds exactly the 1000-coin fresh record. -/
theorem c10_new_user_init_witness :
    alookup c10data.users "new" = none ∧
    (alookup (ensureUser c10data "new").users "new" =
       some { coins := INIT_COIN_COUNT, holdings := [], pendingOrders := [] } ∧
     totalCoins (ensureUser c10data "new").users = totalCoins c10data.users + 1000) :=
  ⟨rfl, c10_new_user_init c10data "new" rfl⟩

/-- Claim C9, counterexample: cancelling A, when the same user also has the
later resting order B, empties the whole pending list (one-argument splice
removes A and everything after it) while B stays in its queue, so the hit
case of the claim — every OTHER resting order unchanged in both structures
— is false. -/
theorem c9_counterexample :
    (match cancelOrder c9data c9orderA with
     | Except.ok d =>
        some ((alookup d.users "u").map User.pendingOrders,
              (alookup d.guilds "g").map (fun g => alookup g.lim 6))
     | _ => none)
    = some (some [], some (some [c9orderB])) ∧ c9orderB ≠ c9orderA := by
  exact ⟨rfl, by decide⟩

/-- Claim C9, amended: a cancel whose order id is absent from the caller's
pending list fails with InvalidOrderIDError before any guild or queue is
touched and mutates nothing; a cancel that finds the id at pending index i
removes the order AND every later entry from the owner's pending list, and
in the order-book queue its descriptor selects — the price-keyed limit
queue of a limit order, or the direction's market queue of a market order —
removes the entry at the found index j and every later entry (one-argument
splice truncates to the end). -/
theorem c9_cancel_behavior (data : Data) (order : Order) (u : User)
    (hu : alookup data.users order.userId = some u) :
    (jsFindIndex u.pendingOrders (fun t => decide (t.id = order.id)) = -1 →
       cancelOrder data order = Except.error Fault.invalidOrderID)
    ∧ (∀ (g : Guild) (q : List Order) (i j : Nat),
        jsFindIndex u.pendingOrders (fun t => decide (t.id = order.id)) = (i : Int) →
        alookup data.guilds order.guildId = some g →
        order.type = OrderType.lim →
        alookup g.lim order.price = some q →
        jsFindIndex q (fun t => decide (t.id = order.id)) = (j : Int) →
        ∃ d, cancelOrder data order = Except.ok d ∧
          (alookup d.users order.userId).map User.pendingOrders =
            some (u.pendingOrders.take i) ∧
          (alookup d.guilds order.guildId).map (fun h => alookup h.lim order.price) =
            some (some (q.take j)))
    ∧ (∀ (g : Guild) (i j : Nat),
        jsFindIndex u.pendingOrders (fun t => decide (t.id = order.id)) = (i : Int) →
        alookup data.guilds order.guildId = some g →
        order.type = OrderType.mkt →
        jsFindIndex (mktGet g.mkt order.dir) (fun t => decide (t.id = order.id)) = (j : Int) →
        ∃ d, cancelOrder data order = Except.ok d ∧
          (alookup d.users order.userId).map User.pendingOrders =
            some (u.pendingOrders.take i) ∧
          (alookup d.guilds order.guildId).map (fun h => mktGet h.mkt order.dir) =
            some ((mktGet g.mkt order.dir).take j)) := by
  refine ⟨?_, ?_, ?_⟩
  · intro hmiss
    unfold cancelOrder
    simp only [hu]
    rw [if_pos hmiss]
  · intro g q i j hi hg ht hq hj
    have hne : ¬ (jsFindIndex u.pendingOrders (fun t => decide (t.id = order.id)) = -1) := by
      rw [hi]
      omega
    have hres : cancelOrder data order =
        Except.ok { data with
          users := aupdate data.users order.userId
            (fun v => { v with
              pendingOrders := jsSpliceFrom v.pendingOrders
                (jsFindIndex u.pendingOrders (fun t => decide (t.id = order.id))) }),
          guilds := aupdate data.guilds order.guildId
            (fun h => { h with
              lim := aset h.lim order.price
                (jsSpliceFrom q (jsFindIndex q (fun t => decide (t.id = order.id)))) }) } := by
      unfold cancelOrder
      simp only [hu, hg, ht, hq]
      rw [if_neg hne]
    refine ⟨_, hres, ?_, ?_⟩
    · rw [alookup_aupdate_self, hu]
      simp [hi, jsSpliceFrom_natCast]
    · rw [alookup_aupdate_self, hg]
      simp [alookup_aset_self, hj, jsSpliceFrom_natCast]
  · intro g i j hi hg ht hj
    have hne : ¬ (jsFindIndex u.pendingOrders (fun t => decide (t.id = order.id)) = -1) := by
      rw [hi]
      omega
    have hres : cancelOrder data order =
        Except.ok { data with
          users := aupdate data.users order.userId
            (fun v => { v with
              pendingOrders := jsSpliceFrom v.pendingOrders
                (jsFindIndex u.pendingOrders (fun t => decide (t.id = order.id))) }),
          guilds := aupdate data.guilds order.guildId
            (fun h => { h with
              mkt := mktSet h.mkt order.dir
                (jsSpliceFrom (mktGet g.mkt order.dir)
                  (jsFindIndex (mktGet g.mkt order.dir)
                    (fun t => decide (t.id = order.id)))) }) } := by
      unfold cancelOrder
      simp only [hu, hg, ht]
      rw [if_neg hne]
    refine ⟨_, hres, ?_, ?_⟩
    · rw [alookup_aupdate_self, hu]
      simp [hi, jsSpliceFrom_natCast]
    · rw [alookup_aupdate_self, hg]
      simp [mktGet_mktSet, hj, jsSpliceFrom_natCast]

/-- Witness for c9_cancel_behavior: the concrete C9 state, cancelling A
(a limit order sitting at pending index 0 and queue index 0); the only
hypothesis, the caller's user record, is discharged by evaluation. -/
theorem c9_cancel_behavior_witness :
    alookup c9data.users c9orderA.userId = some c9user ∧
    ((jsFindIndex c9user.pendingOrders (fun t => decide (t.id = c9orderA.id)) = -1 →
        cancelOrder c9data c9orderA = Except.error Fault.invalidOrderID)
     ∧ (∀ (g : Guild) (q : List Order) (i j : Nat),
         jsFindIndex c9user.pendingOrders (fun t => decide (t.id = c9orderA.id)) = (i : Int) →
         alookup c9data.guilds c9orderA.guildId = some g →
         c9orderA.type = OrderType.lim →
         alookup g.lim c9orderA.price = some q →
         jsFindIndex q (fun t => decide (t.id = c9orderA.id)) = (j : Int) →
         ∃ d, cancelOrder c9data c9orderA = Except.ok d ∧
           (alookup d.users c9orderA.userId).map User.pendingOrders =
             some (c9user.pendingOrders.take i) ∧
           (alookup d.guilds c9orderA.guildId).map (fun h => alookup h.lim c9orderA.price) =
             some (some (q.take j)))
     ∧ (∀ (g : Guild) (i j : Nat),
         jsFindIndex c9user.pendingOrders (fun t => decide (t.id = c9orderA.id)) = (i : Int) →
         alookup c9data.guilds c9orderA.guildId = some g →
         c9orderA.type = OrderType.mkt →
         jsFindIndex (mktGet g.mkt c9orderA.dir) (fun t => decide (t.id = c9orderA.id)) =
           (j : Int) →
         ∃ d, cancelOrder c9data c9orderA = Except.ok d ∧
           (alookup d.users c9orderA.userId).map User.pendingOrders =
             some (c9user.pendingOrders.take i) ∧
           (alookup d.guilds c9orderA.guildId).map (fun h => mktGet h.mkt c9orderA.dir) =
             some ((mktGet g.mkt c9orderA.dir).take j))) :=
  ⟨rfl, c9_cancel_behavior c9data c9orderA c9user rfl⟩

/-- Claim C8 (price-time priority): with two resting sells A (older) then B
at the same price p and an incoming buy of volume v that only partially
fills the level (v < vA + vB), submit consumes the queue strictly FIFO:
if v < vA then A keeps its head position with only its volume decreased
and B is completely untouched; if v = vA then A is removed and B untouched;
if vA < v then A is removed first and only then is B partially filled,
keeping its position with only its volume decreased.  The buy itself is
fully filled (returns null). -/
theorem c8_fifo (vA vB v p hA hB c : Int)
    (hvA : 0 < vA) (_hvB : 0 < vB) (hv : 0 < v)
    (hlt : v < vA + vB) (hc : p * v ≤ c) :
    (match processOrder 5 (c8data vA vB p hA hB c) (c8buy v p) "N" with
     | Except.ok (d, r) =>
        some ((alookup d.guilds "g").map (fun g => alookup g.lim p), r.isNone)
     | _ => none)
    = some (some (some (
        if v < vA then [{ c8A vA p with volume := vA - v }, c8B vB p]
        else if v = vA then [c8B vB p]
        else [{ c8B vB p with volume := vB - (v - vA) }])), true) := by
  have hv0 : ¬ (v ≤ 0) := by omega
  have hcoin : ¬ (c < p * v) := by omega
  by_cases h1 : v < vA
  · have hful : ¬ (vA ≤ v) := by omega
    simp [processOrder, executeOrderPrice, execLoop, pickOpp, pickMkt, pickLim,
      writeBackOpp, oppDirOf, directionOf, mktGet, mktSet, alookup, aset, aerase,
      aupdate, hReadNum, jAdd, jSub, jLtInt, storeBack, SYSTEM_ID,
      c8data, c8A, c8B, c8buy, hv0, hcoin, hful, h1]
  · by_cases h2 : v = vA
    · subst h2
      have hful : v ≤ v := le_refl v
      simp [processOrder, executeOrderPrice, execLoop, pickOpp, pickMkt, pickLim,
        writeBackOpp, oppDirOf, directionOf, mktGet, mktSet, alookup, aset, aerase,
        aupdate, hReadNum, jAdd, jSub, jLtInt, jsFindIndex, jsFindIndexFrom,
        jsSpliceFrom, storeBack, SYSTEM_ID,
        c8data, c8A, c8B, c8buy, hv0, hcoin, hful, h1]
    · have hAlt : vA < v := by omega
      have hful : vA ≤ v := by omega
      have hful2 : ¬ (vB ≤ v - vA) := by omega
      have hnz : ¬ (v - vA = 0) := by omega
      simp [processOrder, executeOrderPrice, execLoop, pickOpp, pickMkt, pickLim,
        writeBackOpp, oppDirOf, directionOf, mktGet, mktSet, alookup, aset, aerase,
        aupdate, hReadNum, jAdd, jSub, jLtInt, jsFindIndex, jsFindIndexFrom,
        jsSpliceFrom, storeBack, SYSTEM_ID,
        c8data, c8A, c8B, c8buy, hv0, hcoin, hful, hful2, hnz, h1, h2]

/-- Witness for c8_fifo: volumes 4 then 5 resting at price 2, an incoming
buy of 6 — A is consumed whole, B is partially filled in place. -/
theorem c8_fifo_witness :
    (0 : Int) < 4 ∧ (0 : Int) < 5 ∧ (0 : Int) < 6 ∧ (6 : Int) < 4 + 5 ∧
      (2 * 6 : Int) ≤ 1000 ∧
    (match processOrder 5 (c8data 4 5 2 4 5 1000) (c8buy 6 2) "N" with
     | Except.ok (d, r) =>
        some ((alookup d.guilds "g").map (fun g => alookup g.lim 2), r.isNone)
     | _ => none)
    = some (some (some (
        if (6 : Int) < 4 then [{ c8A 4 2 with volume := 4 - 6 }, c8B 5 2]
        else if (6 : Int) = 4 then [c8B 5 2]
        else [{ c8B 5 2 with volume := 5 - (6 - 4) }])), true) :=
  ⟨by decide, by decide, by decide, by decide, by decide,
    c8_fifo 4 5 6 2 4 5 1000 (by decide) (by decide) (by decide) (by decide) (by decide)⟩

end FrivolousStonks
